import Mathlib

/-!
Verification of the survey-response aggregation pipeline of the dashboard
in `src/app.py`.  The pipeline operations are shallowly embedded as Lean
functions over an explicit tabular `Snapshot`; pandas and
`collections.Counter` behaviour is translated operation by operation from
the source lines cited in each doc comment.
-/

namespace TccDash

/- ### Data model -/

/-- A cell value of the tabular snapshot produced by `run_query`
(`src/app.py`): a string, a number, or null/NaN (pandas missing value). -/
inductive Value where
  | str (s : String)
  | num (n : Int)
  | null
deriving DecidableEq, Repr

/-- One row of the snapshot: an association list from column name to value
(a pandas DataFrame row). -/
abbrev Row := List (String × Value)

/-- The tabular snapshot returned by `run_query` (`src/app.py` line 41):
an ordered sequence of rows. -/
abbrev Snapshot := List Row

/-- Value of column `c` in row `r`; a column absent from the row reads as
null (pandas missing value). -/
def colVal : Row → String → Value
  | [], _ => Value.null
  | (k, v) :: t, c => if k = c then v else colVal t c

/-- The column `c` of a snapshot, as the list of its per-row values
(pandas `df[c]`, `src/app.py` lines 77, 90, 106, 120, 161, 171). -/
def col (s : Snapshot) (c : String) : List Value :=
  s.map (fun r => colVal r c)

/-- Pandas `Series.dropna` (`src/app.py` lines 106, 120, 184, 191): keep
only the non-null values. -/
def dropna (l : List Value) : List Value :=
  l.filter (fun v => v ≠ Value.null)

/- ### Counting (collections.Counter and Series.value_counts) -/

/-- One step of `collections.Counter`: increment the count of `a`, adding a
new final entry with count 1 when `a` has no entry yet (Python dicts keep
insertion order). -/
def bump [DecidableEq α] (a : α) : List (α × Nat) → List (α × Nat)
  | [] => [(a, 1)]
  | (b, n) :: t => if b = a then (b, n + 1) :: t else (b, n) :: bump a t

/-- Tail of the `collections.Counter` construction: feed the elements of
the list one by one into the accumulated count table. -/
def tallyAux [DecidableEq α] (acc : List (α × Nat)) : List α → List (α × Nat)
  | [] => acc
  | a :: t => tallyAux (bump a acc) t

/-- `collections.Counter(l)` (`src/app.py` lines 107, 121): occurrence
counts of the elements of `l`, keys in first-occurrence order. -/
def tally [DecidableEq α] (l : List α) : List (α × Nat) :=
  tallyAux [] l

/-- Look up the count recorded for `v` in a count table (first matching
entry). -/
def lookupCount [DecidableEq α] (v : α) : List (α × Nat) → Option Nat
  | [] => none
  | (a, n) :: t => if a = v then some n else lookupCount v t

/-- The count recorded for `v` in a count table, zero when absent. -/
def countOf [DecidableEq α] (v : α) (t : List (α × Nat)) : Nat :=
  (lookupCount v t).getD 0

/-- Total number of occurrences recorded in a count table. -/
def sumCounts (t : List (α × Nat)) : Nat :=
  (t.map Prod.snd).sum

/-- Pandas `Series.value_counts` (`src/app.py` lines 77, 90, 137, 148, 161,
171): occurrence counts of the distinct non-null values of the series.  The
model lists the labels in first-occurrence order; pandas lists them by
descending count, but every claim below reads this table only through the
count of each label, or through a reindex against a fixed vocabulary, so
the listing order is never relied upon. -/
def value_counts (l : List Value) : List (Value × Nat) :=
  tally (dropna l)

/-- Counting the non-null values of one column verbatim
(`uni_counts = df[..].value_counts()`, `src/app.py` line 77; the course
counting at line 90 is the same operation). -/
def countCategorical (s : Snapshot) (c : String) : List (Value × Nat) :=
  value_counts (col s c)

/- ### Multi-value tag counting (src/app.py lines 106-107 and 120-121) -/

/-- Python `str.strip()` as used on each fragment (`item.strip()`,
`src/app.py` lines 106, 120): remove leading and trailing whitespace. -/
def pyStrip (s : String) : String :=
  String.mk (((s.toList.dropWhile Char.isWhitespace).reverse.dropWhile
    Char.isWhitespace).reverse)

/-- Helper for `pySplit`: walk the characters, cutting at each occurrence
of the delimiter; `acc` holds the characters of the current fragment in
reverse. -/
def splitCharsAux (d : Char) (acc : List Char) :
    List Char → List (List Char)
  | [] => [acc.reverse]
  | c :: rest =>
    if c = d then acc.reverse :: splitCharsAux d [] rest
    else splitCharsAux d (c :: acc) rest

/-- Python `str.split(d)` for a one-character delimiter, the form the
source uses (`.str.split(',')`, `src/app.py` lines 106, 120): split on
every occurrence of the delimiter, keeping empty fragments, and return one
(empty) fragment for the empty string. -/
def pySplit (d : Char) (s : String) : List String :=
  (splitCharsAux d [] s.toList).map String.mk

/-- The string content of a value, when it is a string. -/
def asStr : Value → Option String
  | Value.str s => some s
  | _ => none

/-- Require every value of the list to be a string (pandas `.str.split`
maps a non-string element to NaN, and the comprehension at `src/app.py`
lines 106, 120 then raises a TypeError when it iterates that NaN; the
model returns none in that case). -/
def allStrings : List Value → Option (List String)
  | [] => some []
  | v :: t =>
    match asStr v, allStrings t with
    | some s, some rest => some (s :: rest)
    | _, _ => none

/-- All trimmed fragments of all rows, in row order
(`[item.strip() for sublist in .. for item in sublist]`, `src/app.py`
lines 106, 120). -/
def stripFragments (d : Char) (strs : List String) : List String :=
  (strs.map (fun v => (pySplit d v).map pyStrip)).flatten

/-- The multi-value tag counting of `src/app.py` lines 106-107 (and
120-121): drop the null rows of the column, split each remaining string
value on the delimiter, strip each fragment, and count every fragment with
`Counter` (the source keeps fragments that are empty after stripping).
Returns none when a non-null value of the column is not a string, where
the source raises a TypeError. -/
def countMultiValueTags (s : Snapshot) (c : String) (d : Char) :
    Option (List (String × Nat)) :=
  match allStrings (dropna (col s c)) with
  | none => none
  | some strs => some (tally (stripFragments d strs))

/- ### Ordered frequency reindexing (src/app.py lines 161 and 171) -/

/-- The reindex of a `value_counts` table against a fixed ordered
vocabulary (`value_counts().reindex(ORDER_MAP).fillna(0)`, `src/app.py`
lines 161, 171): one output entry per vocabulary label, in vocabulary
order, holding the count the table records for that label, and 0 for a
label the table does not mention (reindex produces NaN there and
`fillna(0)` turns it into 0); table labels outside the vocabulary produce
no output entry. -/
def toOrderedFrequencySeries (counts : List (Value × Nat))
    (vocab : List String) : List (String × Nat) :=
  vocab.map (fun lbl => (lbl, countOf (Value.str lbl) counts))

/-- The fixed five-point vocabulary `ORDER_MAP` of `src/app.py` line 60. -/
def ORDER_MAP : List String :=
  ["Nunca", "Raramente", "Ocasionalmente", "Frequentemente",
   "Muito frequentemente"]

/- ### Descending sort of a count table (src/app.py lines 109 and 123) -/

/-- Insert a pair into a list that is ascending by count, before the first
entry with a strictly greater count (so an entry with an equal count stays
in front of the inserted one). -/
def insertAsc (x : α × Nat) : List (α × Nat) → List (α × Nat)
  | [] => [x]
  | y :: t => if x.2 < y.2 then x :: y :: t else y :: insertAsc x t

/-- Stable ascending insertion sort by count, processing the input left to
right. -/
def sortAscStable (acc : List (α × Nat)) :
    List (α × Nat) → List (α × Nat)
  | [] => acc
  | x :: t => sortAscStable (insertAsc x acc) t

/-- Pandas `DataFrame.sort_values(by=count, ascending=False)` as applied
to the Counter table (`src/app.py` lines 109, 123): pandas computes the
ascending argsort of the count column and reverses it, so the model sorts
ascending with a stable sort and reverses the result.  (numpy argsort is
run with its default kind; on arrays below 16 elements that is insertion
sort, which is stable, so the reversal determines the tie order.) -/
def sortDescendingByCount (l : List (α × Nat)) : List (α × Nat) :=
  (sortAscStable [] l).reverse

/- ### Group summary (spec section 4.2; no corresponding code in src/) -/

/-- Modelled from the spec: `summarizeByGroup(snapshot, groupColumn)` is
described in spec section 4.2 but has no implementation under `src/`
(`src/app.py` never groups by `home_community` or computes a mean).  Per
the spec it is `countCategorical` on the group column together with the
arithmetic mean of the resulting counts. -/
def summarizeByGroup (s : Snapshot) (c : String) :
    List (Value × Nat) × ℚ :=
  let counts := countCategorical s c
  (counts, (sumCounts counts : ℚ) / (counts.length : ℚ))

/-- Scenario D snapshot of the spec: a `home_community` column whose group
counts are X = 4, Y = 2, Z = 6. -/
def groupSnapshotD : Snapshot :=
  List.replicate 4 [("home_community", Value.str "X")] ++
  List.replicate 2 [("home_community", Value.str "Y")] ++
  List.replicate 6 [("home_community", Value.str "Z")]

/- ### Response store accessor (src/app.py lines 18-47) -/

/-- Modelled from the spec and the decorator at `src/app.py` line 32: the
memoization state kept by the caching decorator with a 600 second ttl (its
implementation lives in the streamlit library, not under `src/`): at most
one remembered entry of query text, snapshot, and fetch time in seconds. -/
structure CacheState where
  entry : Option (String × Snapshot × Nat)
deriving Repr

/-- Freshness window of the memoized query result, in seconds
(`ttl=600`, `src/app.py` line 32). -/
def ttlSeconds : Nat := 600

/-- Modelled from the spec: one `fetch` through the caching decorator
(`src/app.py` lines 32-43; the decorator itself is streamlit library
code).  When the remembered entry is for the same query and is younger
than the freshness window, it is returned and the store is not contacted;
otherwise the store is queried and the entry replaced.  The returned flag
records whether the store was contacted on this call. -/
def fetchCached (store : String → Snapshot) (st : CacheState)
    (q : String) (now : Nat) : Snapshot × CacheState × Bool :=
  match st.entry with
  | some (q0, snap, t0) =>
    if q0 = q ∧ now < t0 + ttlSeconds then (snap, st, false)
    else (store q, ⟨some (q, store q, now)⟩, true)
  | none => (store q, ⟨some (q, store q, now)⟩, true)

/-- The uncached body of `run_query` (`src/app.py` lines 33-43):
`init_connection` (lines 18-27) catches connection errors, shows a
message, and returns None; `run_query` then returns the query result when
a connection was obtained and an empty DataFrame otherwise.  `connOk`
states whether the connection attempt succeeds; `queryResult` is what
`pd.read_sql_query` returns over that connection. -/
def run_query (connOk : Bool) (queryResult : Snapshot) : Snapshot :=
  if connOk then queryResult else []

/-- Connection lifecycle events of one `run_query` call
(`src/app.py` lines 36-43). -/
structure ConnTrace where
  opened : Bool
  closed : Bool
  committed : Bool
  rolledBack : Bool
deriving DecidableEq, Repr

/-- Connection lifecycle of `run_query` (`src/app.py` lines 36-43): when
`init_connection` fails no connection exists; otherwise the body runs
inside the `with conn:` block.  psycopg2 documents that exiting this block
commits the transaction on success and rolls it back on an exception, but
does not close the connection; no path of `run_query` calls
`conn.close()`. -/
def runQueryTrace (connOk : Bool) (queryOk : Bool) : ConnTrace :=
  if connOk then
    if queryOk then
      { opened := true, closed := false, committed := true,
        rolledBack := false }
    else
      { opened := true, closed := false, committed := false,
        rolledBack := true }
  else
    { opened := false, closed := false, committed := false,
      rolledBack := false }

/- ### Lemmas about the count table -/

theorem lookupCount_bump [DecidableEq α] (v a : α) (acc : List (α × Nat)) :
    lookupCount v (bump a acc) =
      if a = v then some (countOf v acc + 1) else lookupCount v acc := by
  induction acc with
  | nil =>
    by_cases h : a = v <;> simp [bump, lookupCount, countOf, h]
  | cons p t ih =>
    obtain ⟨b, n⟩ := p
    by_cases hba : b = a
    · subst hba
      by_cases h : b = v <;>
        simp [bump, lookupCount, countOf, h, ih]
    · by_cases hbv : b = v
      · subst hbv
        have hav : ¬ a = b := fun h => hba h.symm
        simp [bump, lookupCount, countOf, hba, hav]
      · simp [bump, lookupCount, countOf, hba, hbv, ih]

theorem countOf_bump [DecidableEq α] (v a : α) (acc : List (α × Nat)) :
    countOf v (bump a acc) =
      countOf v acc + (if a = v then 1 else 0) := by
  by_cases h : a = v <;>
    simp [countOf, lookupCount_bump, h]

theorem countOf_tallyAux [DecidableEq α] (v : α) (l : List α)
    (acc : List (α × Nat)) :
    countOf v (tallyAux acc l) = countOf v acc + l.count v := by
  induction l generalizing acc with
  | nil => simp [tallyAux]
  | cons a t ih =>
    rw [tallyAux, ih, countOf_bump]
    by_cases h : a = v
    · simp [h, List.count_cons]
      omega
    · have : ¬ (v == a) = true := by
        simp [beq_iff_eq]
        exact fun hv => h hv.symm
      simp [h, List.count_cons, this]

/-- The count table built by `Counter` records, for every candidate label,
exactly the number of occurrences of that label in the input list. -/
theorem countOf_tally [DecidableEq α] (v : α) (l : List α) :
    countOf v (tally l) = l.count v := by
  rw [tally, countOf_tallyAux]
  simp [countOf, lookupCount]

theorem sumCounts_bump [DecidableEq α] (a : α) (acc : List (α × Nat)) :
    sumCounts (bump a acc) = sumCounts acc + 1 := by
  induction acc with
  | nil => simp [bump, sumCounts]
  | cons p t ih =>
    obtain ⟨b, n⟩ := p
    by_cases h : b = a <;>
      simp [bump, sumCounts, h] <;>
      simp [sumCounts] at ih <;> omega

theorem sumCounts_tallyAux [DecidableEq α] (l : List α)
    (acc : List (α × Nat)) :
    sumCounts (tallyAux acc l) = sumCounts acc + l.length := by
  induction l generalizing acc with
  | nil => simp [tallyAux]
  | cons a t ih =>
    rw [tallyAux, ih, sumCounts_bump]
    simp only [List.length_cons]
    omega

/-- The counts recorded by `Counter` sum to the length of the input
list. -/
theorem sumCounts_tally [DecidableEq α] (l : List α) :
    sumCounts (tally l) = l.length := by
  rw [tally, sumCounts_tallyAux]
  simp [sumCounts]

/- ### Lemmas about dropna -/

theorem dropna_length_le (l : List Value) :
    (dropna l).length ≤ l.length := by
  exact List.length_filter_le _ l

theorem dropna_cons (v : Value) (t : List Value) :
    dropna (v :: t) =
      if v = Value.null then dropna t else v :: dropna t := by
  by_cases h : v = Value.null <;>
    simp [dropna, List.filter_cons, h]

theorem dropna_length_eq_iff (l : List Value) :
    (dropna l).length = l.length ↔ ∀ v ∈ l, v ≠ Value.null := by
  induction l with
  | nil => simp [dropna]
  | cons a t ih =>
    rw [dropna_cons]
    by_cases h : a = Value.null
    · subst h
      have hle := dropna_length_le t
      rw [if_pos rfl]
      simp only [List.length_cons]
      constructor
      · intro hlen
        omega
      · intro hall
        exact absurd rfl (hall Value.null (List.mem_cons_self _ _))
    · simp only [if_neg h, List.length_cons]
      constructor
      · intro hlen v hv
        rcases List.mem_cons.mp hv with rfl | hvt
        · exact h
        · exact (ih.mp (by omega)) v hvt
      · intro hall
        have := ih.mpr (fun v hv => hall v (List.mem_cons_of_mem _ hv))
        omega

theorem mem_dropna {v : Value} {l : List Value} (h : v ∈ dropna l) :
    v ∈ l ∧ v ≠ Value.null := by
  have := List.mem_filter.mp h
  simpa using this

theorem null_not_mem_dropna (l : List Value) :
    Value.null ∉ dropna l := by
  intro h
  exact (mem_dropna h).2 rfl

theorem count_dropna (v : Value) (hv : v ≠ Value.null) (l : List Value) :
    (dropna l).count v = l.count v := by
  induction l with
  | nil => rfl
  | cons a t ih =>
    rw [dropna_cons]
    by_cases h : a = Value.null
    · subst h
      rw [if_pos rfl, ih, List.count_cons]
      have : ¬ (Value.null == v) = true := by
        simp [beq_iff_eq]
        exact fun hn => hv hn.symm
      simp [this]
    · rw [if_neg h, List.count_cons, List.count_cons, ih]

theorem allStrings_some (l : List Value)
    (h : ∀ v ∈ l, (asStr v).isSome = true) :
    ∃ strs, allStrings l = some strs := by
  induction l with
  | nil => exact ⟨[], rfl⟩
  | cons v t ih =>
    obtain ⟨strs, hstrs⟩ :=
      ih (fun w hw => h w (List.mem_cons_of_mem _ hw))
    have hv := h v (List.mem_cons_self _ _)
    cases v with
    | str s => exact ⟨s :: strs, by simp [allStrings, asStr, hstrs]⟩
    | num n => simp [asStr] at hv
    | null => simp [asStr] at hv

/- ### Lemmas about the descending sort -/

theorem insertAsc_perm (x : α × Nat) (l : List (α × Nat)) :
    List.Perm (insertAsc x l) (x :: l) := by
  induction l with
  | nil => exact List.Perm.refl _
  | cons y t ih =>
    by_cases h : x.2 < y.2
    · simp only [insertAsc, if_pos h]
      exact List.Perm.refl _
    · simp only [insertAsc, if_neg h]
      exact (ih.cons y).trans (List.Perm.swap x y t)

theorem sortAscStable_perm (l : List (α × Nat)) :
    ∀ acc, List.Perm (sortAscStable acc l) (acc ++ l) := by
  induction l with
  | nil => intro acc; simp [sortAscStable]
  | cons x t ih =>
    intro acc
    rw [sortAscStable]
    have h1 : List.Perm (sortAscStable (insertAsc x acc) t)
        (insertAsc x acc ++ t) := ih _
    have h2 : List.Perm (insertAsc x acc ++ t) ((x :: acc) ++ t) :=
      (insertAsc_perm x acc).append_right t
    have h3 : List.Perm (acc ++ x :: t) (x :: (acc ++ t)) :=
      List.perm_middle
    exact (h1.trans h2).trans h3.symm

theorem pairwise_insertAsc (x : α × Nat) (l : List (α × Nat))
    (h : l.Pairwise (fun p q => p.2 ≤ q.2)) :
    (insertAsc x l).Pairwise (fun p q => p.2 ≤ q.2) := by
  induction l with
  | nil => simp [insertAsc]
  | cons y t ih =>
    rcases List.pairwise_cons.mp h with ⟨hy, ht⟩
    by_cases hlt : x.2 < y.2
    · simp only [insertAsc, if_pos hlt]
      refine List.pairwise_cons.mpr ⟨?_, h⟩
      intro z hz
      rcases List.mem_cons.mp hz with rfl | hzt
      · exact Nat.le_of_lt hlt
      · exact Nat.le_trans (Nat.le_of_lt hlt) (hy z hzt)
    · simp only [insertAsc, if_neg hlt]
      refine List.pairwise_cons.mpr ⟨?_, ih ht⟩
      intro z hz
      have hz' : z = x ∨ z ∈ t := by
        have := (insertAsc_perm x t).mem_iff.mp hz
        simpa using this
      rcases hz' with rfl | hzt
      · exact Nat.le_of_not_lt hlt
      · exact hy z hzt

theorem pairwise_sortAscStable (l : List (α × Nat)) :
    ∀ acc, acc.Pairwise (fun p q => p.2 ≤ q.2) →
      (sortAscStable acc l).Pairwise (fun p q => p.2 ≤ q.2) := by
  induction l with
  | nil => intro acc hacc; simpa [sortAscStable] using hacc
  | cons x t ih =>
    intro acc hacc
    rw [sortAscStable]
    exact ih _ (pairwise_insertAsc x acc hacc)

/- ### Claim C1 -/

/-- C1 (counterexample): the source keeps fragments that are empty after
stripping.  On a single row whose multi-value cell is the string with a
trailing delimiter, the split yields an empty second fragment and the
Counter counts it: the empty-string label gets count 1, while the claim
says an empty-string fragment is never counted. -/
theorem countMultiValueTags_counts_empty_fragment :
    countMultiValueTags [[("acesso_leitura_comunidade", Value.str "A,")]]
        "acesso_leitura_comunidade" ',' =
      some [("A", 1), ("", 1)] ∧
    countOf "" [(("A" : String), 1), ("", 1)] = 1 := by
  exact ⟨rfl, rfl⟩

/-- C1 (amended): `countMultiValueTags` splits each row string value of
the column on the delimiter, trims each fragment, and increments the count
once per fragment, keeping fragments that are empty after trimming (they
are counted under the empty-string label rather than discarded); rows
whose value is null contribute nothing; splitting "A, B ,C" on the comma
still yields counts A = 1, B = 1, C = 1, because no empty fragment arises
there. -/
theorem countMultiValueTags_correct :
    (∀ (s : Snapshot) (c : String) (d : Char) (strs : List String),
        allStrings (dropna (col s c)) = some strs →
        countMultiValueTags s c d = some (tally (stripFragments d strs)) ∧
        ∀ lab : String,
          countOf lab (tally (stripFragments d strs)) =
            (stripFragments d strs).count lab) ∧
    (∀ (r : Row) (rest : Snapshot) (c : String) (d : Char),
        colVal r c = Value.null →
        countMultiValueTags (r :: rest) c d =
          countMultiValueTags rest c d) ∧
    countMultiValueTags
        [[("acesso_leitura_comunidade", Value.str "A, B ,C")]]
        "acesso_leitura_comunidade" ',' =
      some [("A", 1), ("B", 1), ("C", 1)] := by
  refine ⟨?_, ?_, rfl⟩
  · intro s c d strs h
    refine ⟨?_, fun lab => countOf_tally lab _⟩
    rw [countMultiValueTags, h]
  · intro r rest c d h
    have hcol : col (r :: rest) c = Value.null :: col rest c := by
      simp [col, h]
    rw [countMultiValueTags, countMultiValueTags, hcol, dropna_cons,
      if_pos rfl]

/-- C1 (witness): the amended theorem applied to the concrete one-row
snapshot of the claim. -/
theorem countMultiValueTags_correct_witness :
    countMultiValueTags
        [[("acesso_leitura_comunidade", Value.str "A, B ,C")]]
        "acesso_leitura_comunidade" ',' =
      some (tally (stripFragments ',' ["A, B ,C"])) :=
  (countMultiValueTags_correct.1
    [[("acesso_leitura_comunidade", Value.str "A, B ,C")]]
    "acesso_leitura_comunidade" ',' ["A, B ,C"] rfl).1

/- ### Claim C2 -/

/-- C2 (counterexample): the course counting at `src/app.py` line 90 is a
plain `value_counts` with no trimming and no case normalization, so the
3-row course column with values "Letras", "letras ", " LETRAS" produces
three distinct categories of count 1 each, and the count of "Letras" is 1,
not the 3 the claim states. -/
theorem courseCounts_no_normalization :
    countCategorical
        [[("curso", Value.str "Letras")], [("curso", Value.str "letras ")],
         [("curso", Value.str " LETRAS")]] "curso" =
      [(Value.str "Letras", 1), (Value.str "letras ", 1),
       (Value.str " LETRAS", 1)] ∧
    countOf (Value.str "Letras")
        (countCategorical
          [[("curso", Value.str "Letras")],
           [("curso", Value.str "letras ")],
           [("curso", Value.str " LETRAS")]] "curso") ≠ 3 := by
  exact ⟨rfl, by decide⟩

/-- C2 (amended): the course counting performs no normalization: every
non-null raw value is counted verbatim, values differing only in case or
surrounding whitespace are separate categories, null values are not
counted, and the 3-row example yields the three variant labels with count
1 each. -/
theorem countCategorical_verbatim :
    (∀ (l : List Value) (v : Value), v ≠ Value.null →
        countOf v (value_counts l) = l.count v) ∧
    (∀ l : List Value, countOf Value.null (value_counts l) = 0) ∧
    countCategorical
        [[("curso", Value.str "Letras")], [("curso", Value.str "letras ")],
         [("curso", Value.str " LETRAS")]] "curso" =
      [(Value.str "Letras", 1), (Value.str "letras ", 1),
       (Value.str " LETRAS", 1)] := by
  refine ⟨?_, ?_, rfl⟩
  · intro l v hv
    rw [value_counts, countOf_tally, count_dropna v hv]
  · intro l
    rw [value_counts, countOf_tally]
    exact List.count_eq_zero.mpr (null_not_mem_dropna l)

/-- C2 (witness): the amended theorem applied to a concrete two-value
course column. -/
theorem countCategorical_verbatim_witness :
    countOf (Value.str "Letras")
        (value_counts [Value.str "Letras", Value.str "letras "]) =
      [Value.str "Letras", Value.str "letras "].count
        (Value.str "Letras") :=
  countCategorical_verbatim.1 _ _ (by decide)

/- ### Claim C3 -/

/-- C3 (confirmed): `toOrderedFrequencySeries` lists exactly the
vocabulary labels in vocabulary order (so its length is the vocabulary
length regardless of the input counts), a vocabulary label the count table
does not mention appears with count 0, and a label outside the vocabulary
appears in no output entry. -/
theorem toOrderedFrequencySeries_spec :
    ∀ (counts : List (Value × Nat)) (vocab : List String),
      (toOrderedFrequencySeries counts vocab).map Prod.fst = vocab ∧
      (toOrderedFrequencySeries counts vocab).length = vocab.length ∧
      (∀ lbl ∈ vocab, lookupCount (Value.str lbl) counts = none →
        (lbl, 0) ∈ toOrderedFrequencySeries counts vocab) ∧
      (∀ lbl : String, lbl ∉ vocab →
        ∀ n : Nat, (lbl, n) ∉ toOrderedFrequencySeries counts vocab) := by
  intro counts vocab
  refine ⟨?_, ?_, ?_, ?_⟩
  · rw [toOrderedFrequencySeries, List.map_map]
    have hid : (Prod.fst ∘ fun lbl =>
        (lbl, countOf (Value.str lbl) counts)) = id := rfl
    rw [hid, List.map_id]
  · simp [toOrderedFrequencySeries]
  · intro lbl hl hnone
    have hmem : (lbl, countOf (Value.str lbl) counts) ∈
        toOrderedFrequencySeries counts vocab :=
      List.mem_map_of_mem _ hl
    have h0 : countOf (Value.str lbl) counts = 0 := by
      rw [countOf, hnone]
      rfl
    rwa [h0] at hmem
  · intro lbl hn n hmem
    obtain ⟨x, hx, heq⟩ := List.mem_map.mp hmem
    have hxl : x = lbl := congrArg Prod.fst heq
    exact hn (hxl ▸ hx)

/-- C3 (witness): the theorem applied to Scenario C of the spec: a
vocabulary of three labels and a count table mentioning only the last. -/
theorem toOrderedFrequencySeries_spec_witness :
    ("Never", 0) ∈ toOrderedFrequencySeries [(Value.str "Often", 5)]
      ["Never", "Rarely", "Often"] :=
  (toOrderedFrequencySeries_spec [(Value.str "Often", 5)]
    ["Never", "Rarely", "Often"]).2.2.1 "Never" (by decide) rfl

/- ### Claim C4 -/

/-- C4 (counterexample): the descending sort is not stable.  pandas
reverses the ascending argsort, so on a Counter table with two entries of
equal count the output lists them in reversed insertion order, while the
claim predicts the original insertion order. -/
theorem sortDescendingByCount_not_stable :
    sortDescendingByCount [(("A" : String), 2), ("B", 2)] =
      [("B", 2), ("A", 2)] ∧
    sortDescendingByCount [(("A" : String), 2), ("B", 2)] ≠
      [("A", 2), ("B", 2)] := by
  exact ⟨rfl, by decide⟩

/-- C4 (amended): `sortDescendingByCount` returns the (label, count) pairs
sorted by count in descending order and is a permutation of its input, but
it is not stable: pairs with equal counts appear in reversed insertion
order, as on the concrete two-entry tie. -/
theorem sortDescendingByCount_sorted_perm :
    (∀ l : List (String × Nat),
      List.Perm (sortDescendingByCount l) l ∧
      (sortDescendingByCount l).Pairwise (fun p q => q.2 ≤ p.2)) ∧
    sortDescendingByCount [(("A" : String), 2), ("B", 2)] =
      [("B", 2), ("A", 2)] := by
  refine ⟨?_, rfl⟩
  intro l
  constructor
  · exact (List.reverse_perm _).trans
      (by simpa using sortAscStable_perm l [])
  · rw [sortDescendingByCount]
    rw [List.pairwise_reverse]
    exact pairwise_sortAscStable l [] (by simp)

/- ### Claim C5 -/

/-- C5 (confirmed): the counts of `countCategorical` sum to at most the
number of rows of the snapshot, with equality exactly when no row has a
null value in the counted column (null rows are excluded, not counted as
zero). -/
theorem countCategorical_sum_le_rows :
    ∀ (s : Snapshot) (c : String),
      sumCounts (countCategorical s c) ≤ s.length ∧
      (sumCounts (countCategorical s c) = s.length ↔
        ∀ r ∈ s, colVal r c ≠ Value.null) := by
  intro s c
  have hsum : sumCounts (countCategorical s c) =
      (dropna (col s c)).length := sumCounts_tally _
  have hclen : (col s c).length = s.length := List.length_map _ _
  constructor
  · rw [hsum, ← hclen]
    exact dropna_length_le _
  · rw [hsum, ← hclen, dropna_length_eq_iff]
    simp [col]

/-- C5 (witness): the equality direction applied to a concrete two-row
snapshot with no null university value. -/
theorem countCategorical_sum_le_rows_witness :
    sumCounts (countCategorical
        [[("universidade", Value.str "UFRB")],
         [("universidade", Value.str "UNEB")]] "universidade") =
      ([[("universidade", Value.str "UFRB")],
        [("universidade", Value.str "UNEB")]] : Snapshot).length :=
  (countCategorical_sum_le_rows
    [[("universidade", Value.str "UFRB")],
     [("universidade", Value.str "UNEB")]] "universidade").2.mpr
    (by decide)

/- ### Claim C6 -/

/-- C6 (counterexample): the pipeline is not total on every well-formed
snapshot.  A snapshot whose multi-value column holds a number (a
well-formed cell value) makes the tag counting fail: the model returns
none where `src/app.py` line 106 raises a TypeError iterating the NaN that
`.str.split` produces for a non-string element. -/
theorem countMultiValueTags_numeric_errors :
    countMultiValueTags [[("acesso_leitura_comunidade", Value.num 5)]]
      "acesso_leitura_comunidade" ',' = none := rfl

/-- C6 (amended): the multi-value tag counting is total on a snapshot
whose non-null values in the counted column are all strings (and excludes
the null values rather than erroring on them); the verbatim counting
excludes null values rather than treating them as zero or as an error.  A
non-string, non-null value in a multi-value column makes the source raise,
so totality holds only under the string hypothesis. -/
theorem pipeline_total_on_string_columns :
    (∀ (s : Snapshot) (c : String) (d : Char),
        (∀ v ∈ col s c, v ≠ Value.null → (asStr v).isSome = true) →
        (countMultiValueTags s c d).isSome = true) ∧
    (∀ l : List Value, value_counts (Value.null :: l) = value_counts l) ∧
    (∀ (c : String) (d : Char) (r : Row) (s : Snapshot),
        colVal r c = Value.null →
        countMultiValueTags (r :: s) c d = countMultiValueTags s c d) := by
  refine ⟨?_, ?_, ?_⟩
  · intro s c d h
    have hall : ∀ v ∈ dropna (col s c), (asStr v).isSome = true := by
      intro v hv
      obtain ⟨hin, hne⟩ := mem_dropna hv
      exact h v hin hne
    obtain ⟨strs, hstrs⟩ := allStrings_some _ hall
    rw [countMultiValueTags, hstrs]
    rfl
  · intro l
    rw [value_counts, value_counts, dropna_cons, if_pos rfl]
  · intro c d r s h
    have hcol : col (r :: s) c = Value.null :: col s c := by
      simp [col, h]
    rw [countMultiValueTags, countMultiValueTags, hcol, dropna_cons,
      if_pos rfl]

/-- C6 (witness): totality of the tag counting on a concrete snapshot
whose multi-value column holds one string and one null. -/
theorem pipeline_total_on_string_columns_witness :
    (countMultiValueTags
        [[("acesso_leitura_comunidade", Value.str "Biblioteca, Escola")],
         [("acesso_leitura_comunidade", Value.null)]]
        "acesso_leitura_comunidade" ',').isSome = true :=
  pipeline_total_on_string_columns.1 _ "acesso_leitura_comunidade" ','
    (by decide)

/- ### Claim C7 -/

/-- C7 (confirmed, modelled from the spec): `summarizeByGroup` returns
exactly the `countCategorical` table of the group column together with the
arithmetic mean of those counts (the mean times the number of groups gives
back the sum of the counts whenever there is at least one group), and on
the Scenario D snapshot with group counts X = 4, Y = 2, Z = 6 the mean is
4. -/
theorem summarizeByGroup_spec :
    (∀ (s : Snapshot) (c : String),
        (summarizeByGroup s c).1 = countCategorical s c) ∧
    (∀ (s : Snapshot) (c : String), countCategorical s c ≠ [] →
        (summarizeByGroup s c).2 * ((countCategorical s c).length : ℚ) =
          (sumCounts (countCategorical s c) : ℚ)) ∧
    (summarizeByGroup groupSnapshotD "home_community").1 =
      [(Value.str "X", 4), (Value.str "Y", 2), (Value.str "Z", 6)] ∧
    (summarizeByGroup groupSnapshotD "home_community").2 = 4 := by
  have hD : countCategorical groupSnapshotD "home_community" =
      [(Value.str "X", 4), (Value.str "Y", 2), (Value.str "Z", 6)] := by
    decide
  refine ⟨fun s c => rfl, ?_, ?_, ?_⟩
  · intro s c h
    have hlen : (countCategorical s c).length ≠ 0 := by
      simpa [List.length_eq_zero] using h
    have hq : ((countCategorical s c).length : ℚ) ≠ 0 :=
      Nat.cast_ne_zero.mpr hlen
    rw [summarizeByGroup]
    exact div_mul_cancel₀ _ hq
  · show countCategorical groupSnapshotD "home_community" = _
    exact hD
  · show (sumCounts (countCategorical groupSnapshotD "home_community") : ℚ) /
        ((countCategorical groupSnapshotD "home_community").length : ℚ) = 4
    rw [hD]
    norm_num [sumCounts]

/-- C7 (witness): the mean-law part of the theorem applied to the
Scenario D snapshot, whose group-count table is nonempty. -/
theorem summarizeByGroup_spec_witness :
    (summarizeByGroup groupSnapshotD "home_community").2 *
        ((countCategorical groupSnapshotD "home_community").length : ℚ) =
      (sumCounts (countCategorical groupSnapshotD "home_community") : ℚ) :=
  summarizeByGroup_spec.2.1 groupSnapshotD "home_community" (by decide)

/- ### Claim C8 -/

/-- C8 (confirmed, cache semantics modelled from the spec): starting from
an empty cache, a first fetch queries the store; a second fetch of the
same query within the 600 second freshness window returns the remembered
snapshot without contacting the store (so the store has been queried
exactly once so far); a fetch after the window has elapsed queries the
store a second time. -/
theorem fetchCached_freshness :
    ∀ (store : String → Snapshot) (q : String) (t0 t1 t2 : Nat),
      t1 < t0 + ttlSeconds → t0 + ttlSeconds ≤ t2 →
      (fetchCached store ⟨none⟩ q t0).2.2 = true ∧
      (fetchCached store (fetchCached store ⟨none⟩ q t0).2.1 q t1).2.2 =
        false ∧
      (fetchCached store (fetchCached store ⟨none⟩ q t0).2.1 q t1).1 =
        (fetchCached store ⟨none⟩ q t0).1 ∧
      (fetchCached store
        (fetchCached store
          (fetchCached store ⟨none⟩ q t0).2.1 q t1).2.1 q t2).2.2 =
        true := by
  intro store q t0 t1 t2 h1 h2
  have s1 : fetchCached store ⟨none⟩ q t0 =
      (store q, ⟨some (q, store q, t0)⟩, true) := rfl
  have s2 : fetchCached store ⟨some (q, store q, t0)⟩ q t1 =
      (store q, ⟨some (q, store q, t0)⟩, false) := by
    rw [fetchCached]
    exact if_pos ⟨rfl, h1⟩
  have s3 : fetchCached store ⟨some (q, store q, t0)⟩ q t2 =
      (store q, ⟨some (q, store q, t2)⟩, true) := by
    rw [fetchCached]
    exact if_neg (fun h => absurd h.2 (by omega))
  simp [s1, s2, s3]

/-- C8 (witness): the freshness theorem at concrete times 0, 599 and 600
with a store returning the empty snapshot. -/
theorem fetchCached_freshness_witness :
    (fetchCached (fun _ => []) ⟨none⟩ "q" 0).2.2 = true ∧
    (fetchCached (fun _ => [])
      (fetchCached (fun _ => []) ⟨none⟩ "q" 0).2.1 "q" 599).2.2 = false ∧
    (fetchCached (fun _ => [])
      (fetchCached (fun _ => []) ⟨none⟩ "q" 0).2.1 "q" 599).1 =
      (fetchCached (fun _ => []) ⟨none⟩ "q" 0).1 ∧
    (fetchCached (fun _ => [])
      (fetchCached (fun _ => [])
        (fetchCached (fun _ => []) ⟨none⟩ "q" 0).2.1 "q" 599).2.1
      "q" 600).2.2 = true :=
  fetchCached_freshness (fun _ => []) "q" 0 599 600 (by decide) (by decide)

/- ### Claim C9 -/

/-- C9 (counterexample): on connection failure `run_query` does not signal
an error to its caller: `init_connection` catches the exception and
returns None, and `run_query` returns an empty DataFrame
(`src/app.py` lines 25-27 and 42-43).  The caller therefore does receive
a snapshot, and that snapshot is identical to the result of a successful
query over an empty table, so the degraded result is not distinguishable
from a successful empty one. -/
theorem run_query_conn_failure_counterexample :
    run_query false [[("universidade", Value.str "UFRB")]] =
      ([] : Snapshot) ∧
    run_query false [[("universidade", Value.str "UFRB")]] =
      run_query true [] := by
  exact ⟨rfl, rfl⟩

/-- C9 (amended): on connection failure `run_query` returns the empty
snapshot to its caller (the error is caught inside `init_connection` and
only displayed), and this return value coincides with that of a
successful query returning zero rows, so the two cases are not
distinguishable by the caller; on connection success the query result is
returned unchanged. -/
theorem run_query_conn_failure_empty :
    ∀ rows : Snapshot,
      run_query false rows = [] ∧
      run_query false rows = run_query true [] ∧
      run_query true rows = rows := by
  intro rows
  exact ⟨rfl, rfl, rfl⟩

/- ### Claim C10 -/

/-- C10 (code bug): the claim matches the comment at `src/app.py` line 38
(the `with` block is said to guarantee the connection is closed), but
psycopg2 connection context managers end only the transaction: on both
the successful path and the failing-query path the connection stays open,
and `run_query` never calls `conn.close()`.  The connection is therefore
not released on any exit path that opened one. -/
theorem runQueryTrace_never_closes :
    (runQueryTrace true true).opened = true ∧
    (runQueryTrace true true).closed = false ∧
    (runQueryTrace true false).closed = false ∧
    (runQueryTrace true true).committed = true ∧
    (runQueryTrace true false).rolledBack = true := by
  exact ⟨rfl, rfl, rfl, rfl, rfl⟩

end TccDash
